import Mathlib

/-!
Shallow embedding of the region-routing middleware of `src/middleware.ts`
(Next.js edge middleware for a storefront): the region directory cache
(`getRegionMap`), country-code resolution (`getCountryCode`) and the
redirect decision (`middleware`), together with theorems checking the
specification's claims about them.

JavaScript string primitives (`split`, `toLowerCase`, `includes`) are
modelled by executable functions over the character lists of Lean
strings so that every definition evaluates by kernel reduction.
-/

/-- JS `s.split("/")` for a single-character separator: splits at every
occurrence of the separator, keeping empty pieces (`"/".split("/") =
["",""]`, `"".split("/") = [""]`). -/
def splitOnChar (sep : Char) : List Char → List (List Char)
  | [] => [[]]
  | c :: cs =>
      let r := splitOnChar sep cs
      if c == sep then [] :: r
      else
        match r with
        | [] => [[c]]
        | h :: t => (c :: h) :: t

/-- Model of `pathname.split("/")` from the source, as Lean strings. -/
def jsSplitSlash (s : String) : List String :=
  (splitOnChar '/' s.data).map (fun l => ⟨l⟩)

/-- JS `s.toLowerCase()` (ASCII suffices for country codes and headers). -/
def jsToLower (s : String) : String := ⟨s.data.map Char.toLower⟩

/-- Is the first list a prefix of the second (Boolean, executable)? -/
def listIsPrefixOfB : List Char → List Char → Bool
  | [], _ => true
  | _ :: _, [] => false
  | a :: as, b :: bs => a == b && listIsPrefixOfB as bs

/-- Is the first list a contiguous infix of the second (Boolean)? -/
def listIsInfixOfB : List Char → List Char → Bool
  | sub, [] => listIsPrefixOfB sub []
  | sub, b :: bs => listIsPrefixOfB sub (b :: bs) || listIsInfixOfB sub bs

/-- JS `s.includes(sub)`: substring containment. -/
def jsIncludes (s sub : String) : Bool := listIsInfixOfB sub.data s.data

/-- JS truthiness of a string: truthy iff non-empty. -/
def jsTruthy (s : String) : Bool := s ≠ ""

/-- JS truthiness of an optional string (`undefined` is falsy, `""` is
falsy). -/
def optTruthy : Option String → Bool
  | none => false
  | some s => jsTruthy s

/-- A country entry of a region payload: carries an optional `iso_2`
country code (`HttpTypes.StoreRegion` country, only the field the
middleware reads). -/
structure Country where
  iso_2 : Option String
deriving DecidableEq

/-- A region record as the middleware consumes it: a display name and an
optional country list. -/
structure StoreRegion where
  name : String
  countries : Option (List Country)
deriving DecidableEq

/-- Model of `region.countries` with JS optional chaining collapsed: a missing
list behaves as the empty list for iteration (`countries?.forEach`,
`countries?.some` — `undefined` is falsy / iterates nothing). -/
def regionCountries (r : StoreRegion) : List Country := r.countries.getD []

/-- The region directory: a JS `Map` from country code to region,
modelled as an insertion-ordered association list. -/
abbrev RegionMap := List (String × StoreRegion)

/-- Model of `map.has(k)`. -/
def mapHas (m : RegionMap) (k : String) : Bool := m.any (fun p => p.1 == k)

/-- Model of `map.get(k)` as an option. -/
def mapLookup (m : RegionMap) (k : String) : Option StoreRegion :=
  (m.find? (fun p => p.1 == k)).map (fun p => p.2)

/-- Model of `map.set(k, v)`: updates the existing entry in place (keeping its
insertion position) or appends a new one, as a JS `Map` does. -/
def mapSet (m : RegionMap) (k : String) (v : StoreRegion) : RegionMap :=
  if mapHas m k then m.map (fun p => if p.1 == k then (k, v) else p)
  else m ++ [(k, v)]

/-- Model of `map.keys().next().value`: the first-inserted key, if any. -/
def firstKey (m : RegionMap) : Option String := m.head?.map (fun p => p.1)

/-- The mutable module state of `middleware.ts`: `regionMapCache`
(`regionMap` and `regionMapUpdated`, a millisecond timestamp) and the
module-level `fallbackRegion`. -/
structure RegionState where
  regionMap : RegionMap
  regionMapUpdated : Int
  fallbackRegion : Option StoreRegion
deriving DecidableEq

/-- Outcome of the `fetch` to `{backend}/store/regions` as `getRegionMap`
observes it: the whole `fetch`/`json()` sequence threw, the response was
non-OK, or it parsed to a region list (a missing or null `regions`
field behaves as the empty list: both fail the `regions?.length`
guard). -/
inductive FetchResult
  | threw
  | notOk
  | ok (regions : List StoreRegion)
deriving DecidableEq

/-- The refresh guard of `getRegionMap`:
`!regionMap.keys().next().value || regionMapUpdated < Date.now() - 3600 * 1000`. -/
def needsRefresh (s : RegionState) (now : Int) : Bool :=
  !(optTruthy (firstKey s.regionMap)) || decide (s.regionMapUpdated < now - 3600 * 1000)

/-- The fallback-region selection of the success path: if none is set,
prefer the first region whose countries contain the default region code
(`regions.find(r => r.countries?.some(c => c.iso_2 === DEFAULT_REGION_CODE))`),
else `regions[0]`. -/
def selectFallback (dflt : String) (fallback : Option StoreRegion)
    (regions : List StoreRegion) : Option StoreRegion :=
  match fallback with
  | some fb => some fb
  | none =>
    match regions.find? (fun r => (regionCountries r).any (fun c => c.iso_2 == some dflt)) with
    | some r => some r
    | none => regions.head?

/-- Success-path population for one region:
`region.countries?.forEach(c => regionMap.set(c.iso_2 ?? "", region))`. -/
def populateRegion (m : RegionMap) (r : StoreRegion) : RegionMap :=
  (regionCountries r).foldl (fun m c => mapSet m (c.iso_2.getD "") r) m

/-- Success-path population over the whole response: `regions.forEach(...)`. -/
def populateRegions (m : RegionMap) (regions : List StoreRegion) : RegionMap :=
  regions.foldl populateRegion m

/-- Error-path fallback population:
`fallbackRegion.countries?.forEach(c => { if (c.iso_2) regionMap.set(c.iso_2, fallbackRegion) })` —
note the truthiness guard skips missing and empty `iso_2`. -/
def populateFromFallback (m : RegionMap) (fb : StoreRegion) : RegionMap :=
  (regionCountries fb).foldl
    (fun m c =>
      match c.iso_2 with
      | some code => if code ≠ "" then mapSet m code fb else m
      | none => m)
    m

/-- One execution of `getRegionMap` given the current module state, the
current time and the fetch outcome; returns the new state and the map
the call returns. `dflt` is `DEFAULT_REGION_CODE`
(`process.env.NEXT_PUBLIC_DEFAULT_REGION || "us"`). -/
def getRegionMap (dflt : String) (s : RegionState) (now : Int)
    (fetch : FetchResult) : RegionState × RegionMap :=
  if needsRefresh s now then
    match fetch with
    | .notOk => (s, s.regionMap)
    | .ok regions =>
      if regions.isEmpty then (s, s.regionMap)
      else
        let fb := selectFallback dflt s.fallbackRegion regions
        let m := populateRegions s.regionMap regions
        (⟨m, now, fb⟩, m)
    | .threw =>
      match s.fallbackRegion with
      | some fb =>
        if optTruthy (firstKey s.regionMap) then (s, s.regionMap)
        else
          let m := populateFromFallback s.regionMap fb
          (⟨m, now, some fb⟩, m)
      | none => (s, s.regionMap)
  else (s, s.regionMap)

/-- A sequence of `getRegionMap` calls (time and fetch outcome per call),
folded over the module state. -/
def runCalls (dflt : String) (s : RegionState) (calls : List (Int × FetchResult)) : RegionState :=
  calls.foldl (fun s c => (getRegionMap dflt s c.1 c.2).1) s

/-- A sequence of `getRegionMap` calls that also counts how many calls
entered the refresh branch, i.e. performed a network fetch. -/
def runCount (dflt : String) (s : RegionState) (calls : List (Int × FetchResult)) :
    RegionState × Nat :=
  calls.foldl
    (fun acc c =>
      ((getRegionMap dflt acc.1 c.1 c.2).1,
        acc.2 + if needsRefresh acc.1 c.1 then 1 else 0))
    (s, 0)

/-- Model of `request.nextUrl.pathname.split("/")[1]` with `undefined` as `none`. -/
def firstSegment? (pathname : String) : Option String := (jsSplitSlash pathname).get? 1

/-- The `if`/`else if` chain of `getCountryCode` that assigns
`countryCode` (still possibly `undefined`, as `none`): URL segment,
geolocation header, default region if present as a key, first map key if
truthy. -/
def resolveStep (dflt : String) (urlCC vercelCC : Option String) (m : RegionMap) :
    Option String :=
  if optTruthy urlCC && mapHas m (urlCC.getD "") then urlCC
  else if optTruthy vercelCC && mapHas m (vercelCC.getD "") then vercelCC
  else if mapHas m dflt then some dflt
  else if optTruthy (firstKey m) then firstKey m
  else none

/-- Model of `getCountryCode(request, regionMap)`: resolution of the country code
from the URL's first path segment, the `x-vercel-ip-country` header, the
default region, or the first map key, falling back to
`DEFAULT_REGION_CODE` when the result is still falsy. -/
def getCountryCode (dflt : String) (pathname : String) (vercelHeader : Option String)
    (m : RegionMap) : String :=
  let vercelCountryCode := vercelHeader.map jsToLower
  let urlCountryCode := (firstSegment? pathname).map jsToLower
  match resolveStep dflt urlCountryCode vercelCountryCode m with
  | some c => if c = "" then dflt else c
  | none => dflt

/-- The request fields the middleware consumes from `request.nextUrl`
and `request.headers`. -/
structure Request where
  pathname : String
  search : String
  origin : String
  href : String
  vercelCountry : Option String
deriving DecidableEq

/-- A middleware outcome: `NextResponse.next()` (pass through) or
`NextResponse.redirect(url, status)`. -/
inductive MwResult
  | next
  | redirect (url : String) (status : Nat)
deriving DecidableEq

/-- Model of `request.nextUrl.pathname === "/" ? "" : request.nextUrl.pathname`. -/
def redirectPathOf (req : Request) : String :=
  if req.pathname = "/" then "" else req.pathname

/-- Model of `request.nextUrl.search ? request.nextUrl.search : ""`. -/
def queryStringOf (req : Request) : String :=
  if jsTruthy req.search then req.search else ""

/-- The `try` block of `middleware` after `getRegionMap` returned `m`:
computes the country code, tests
`countryCode && pathname.split("/")[1].includes(countryCode)` and either
passes through or redirects with status 307. Accessing `.includes` on an
`undefined` segment throws a `TypeError`, modelled as `Except.error`
(only reachable when the country code is truthy, by `&&`
short-circuiting). -/
def middlewareBody (dflt : String) (m : RegionMap) (req : Request) : Except String MwResult :=
  let countryCode := getCountryCode dflt req.pathname req.vercelCountry m
  if jsTruthy countryCode then
    match firstSegment? req.pathname with
    | none => .error "TypeError"
    | some seg =>
      if jsIncludes seg countryCode then .ok .next
      else
        .ok (.redirect
          (req.origin ++ "/" ++ countryCode ++ redirectPathOf req ++ queryStringOf req) 307)
  else .ok (.redirect req.href 307)

/-- The redirect target built by the `catch` handler of `middleware`:
`{origin}/{DEFAULT_REGION_CODE}{pathname === "/" ? "" : pathname}{search || ""}`. -/
def middlewareFallbackTarget (dflt : String) (req : Request) : String :=
  req.origin ++ "/" ++ dflt ++ redirectPathOf req ++ queryStringOf req

/-- The `try`/`catch` wrapper of `middleware`: any thrown error is
caught and answered with a 307 redirect to the fallback target. -/
def middlewareCatch (dflt : String) (req : Request) (body : Except String MwResult) : MwResult :=
  match body with
  | .ok r => r
  | .error _ => .redirect (middlewareFallbackTarget dflt req) 307

/-- Model of `middleware(request)` given the directory the cache returned. -/
def middleware (dflt : String) (m : RegionMap) (req : Request) : MwResult :=
  middlewareCatch dflt req (middlewareBody dflt m req)

/-- The keys one region of a successful response writes into the map, in
order (`c.iso_2 ?? ""` for each listed country). -/
def regionListedCodes (r : StoreRegion) : List String :=
  (regionCountries r).map (fun c => c.iso_2.getD "")

/-- The last region of the response (in list order) that lists the given
code: the "last writer" for that key. -/
def lastWriter (regions : List StoreRegion) (code : String) : Option StoreRegion :=
  regions.reverse.find? (fun r => (regionListedCodes r).contains code)

/-- The (non-empty, present) country codes of a region: the keys the
error-path fallback population writes. -/
def presentCodes (r : StoreRegion) : List String :=
  (regionCountries r).filterMap (fun c =>
    match c.iso_2 with
    | some code => if code = "" then none else some code
    | none => none)

/-- Model of `DEFAULT_REGION_CODE` (and `DEFAULT_REGION`, the same expression):
`process.env.NEXT_PUBLIC_DEFAULT_REGION || "us"`; `none` models an unset
variable and `||` falls back on the falsy empty string. -/
def defaultRegionCode (env : Option String) : String :=
  match env with
  | some s => if jsTruthy s then s else "us"
  | none => "us"

/-- Resolution written after the specification's words (amended): take
the first of — non-empty lower-cased first path segment that is a
directory key; non-empty lower-cased geolocation header that is a key;
the default region string if it is a key; the first-inserted key if that
key is non-empty; else the default region code. -/
def resolveSpec (dflt : String) (pathname : String) (header : Option String)
    (m : RegionMap) : String :=
  let seg := jsToLower ((jsSplitSlash pathname).getD 1 "")
  let hdr := jsToLower (header.getD "")
  if seg ≠ "" ∧ mapHas m seg then seg
  else if hdr ≠ "" ∧ mapHas m hdr then hdr
  else if mapHas m dflt then dflt
  else
    match firstKey m with
    | some k => if k ≠ "" then k else dflt
    | none => dflt

/-- Example region: United States, listing country code "us". -/
def regionUS : StoreRegion := ⟨"United States", some [⟨some "us"⟩]⟩

/-- Example region: Germany, listing country code "de". -/
def regionDE : StoreRegion := ⟨"Germany", some [⟨some "de"⟩]⟩

/-- Example region: France, listing country code "fr". -/
def regionFR : StoreRegion := ⟨"France", some [⟨some "fr"⟩]⟩

/-- Example region: Europe, listing country codes "de" and "fr". -/
def regionEU : StoreRegion := ⟨"Europe", some [⟨some "de"⟩, ⟨some "fr"⟩]⟩

/-- Example region with one country whose `iso_2` is missing. -/
def regionNoIso : StoreRegion := ⟨"Mystery", some [⟨none⟩]⟩

/-- Example request to `/us/products?x=1`. -/
def reqPassThrough : Request :=
  ⟨"/us/products", "?x=1", "https://shop.example", "https://shop.example/us/products?x=1", none⟩

/-- Example request whose `pathname` has no slash at all, so
`pathname.split("/")[1]` is `undefined` and the routing body throws. -/
def reqNoSlash : Request := ⟨"", "", "https://shop.example", "https://shop.example", none⟩

/-! ### Association-list lemmas about the `Map` model -/

theorem mapLookup_cons (p : String × StoreRegion) (m : RegionMap) (k : String) :
    mapLookup (p :: m) k = if p.1 = k then some p.2 else mapLookup m k := by
  simp only [mapLookup, List.find?_cons]
  by_cases h : p.1 = k
  · simp [h]
  · have h' : (p.1 == k) = false := by simp [h]
    simp [h, h']

theorem mapLookup_append (m₁ m₂ : RegionMap) (k : String) :
    mapLookup (m₁ ++ m₂) k = (mapLookup m₁ k).or (mapLookup m₂ k) := by
  simp only [mapLookup, List.find?_append]
  cases List.find? (fun p => p.1 == k) m₁ <;> simp

theorem mapLookup_eq_none_of_not_has (m : RegionMap) (k : String)
    (h : mapHas m k = false) : mapLookup m k = none := by
  simp only [mapHas, List.any_eq_false] at h
  simp only [mapLookup]
  rw [List.find?_eq_none.mpr h]
  rfl

theorem mapLookup_isSome_eq_mapHas (m : RegionMap) (k : String) :
    (mapLookup m k).isSome = mapHas m k := by
  induction m with
  | nil => rfl
  | cons p m ih =>
    rw [mapLookup_cons]
    by_cases h : p.1 = k
    · simp [mapHas, h]
    · simp only [h, if_false, ih, mapHas, List.any_cons]
      have h' : (p.1 == k) = false := by simp [h]
      simp [h']

theorem mapLookup_update_self (m : RegionMap) (k : String) (v : StoreRegion)
    (h : mapHas m k = true) :
    mapLookup (m.map (fun p => if p.1 == k then (k, v) else p)) k = some v := by
  induction m with
  | nil => simp [mapHas] at h
  | cons p m ih =>
    rw [List.map_cons, mapLookup_cons]
    by_cases hp : p.1 = k
    · simp [hp]
    · have hp' : (p.1 == k) = false := by simp [hp]
      have hh : mapHas m k = true := by
        simpa [mapHas, List.any_cons, hp'] using h
      simp only [hp', Bool.false_eq_true, if_false, hp]
      simpa using ih hh

theorem mapLookup_update_other (m : RegionMap) (k k' : String) (v : StoreRegion)
    (h : k' ≠ k) :
    mapLookup (m.map (fun p => if p.1 == k then (k, v) else p)) k' = mapLookup m k' := by
  induction m with
  | nil => rfl
  | cons p m ih =>
    rw [List.map_cons, mapLookup_cons, mapLookup_cons]
    by_cases hp : p.1 = k
    · have hk : ¬(k = k') := fun hkk => h hkk.symm
      have hq : ¬(p.1 = k') := by rw [hp]; exact hk
      simp only [hp, if_true, beq_self_eq_true, hk, if_false, hq]
      simpa using ih
    · have hp' : (p.1 == k) = false := by simp [hp]
      simp only [hp', Bool.false_eq_true, if_false]
      by_cases hq : p.1 = k'
      · simp [hq]
      · simp only [hq, if_false]
        simpa using ih

theorem mapLookup_mapSet (m : RegionMap) (k k' : String) (v : StoreRegion) :
    mapLookup (mapSet m k v) k' = if k' = k then some v else mapLookup m k' := by
  by_cases h : mapHas m k = true
  · rw [mapSet, if_pos h]
    by_cases hk : k' = k
    · subst hk
      rw [if_pos rfl]
      exact mapLookup_update_self m k' v h
    · rw [if_neg hk]
      exact mapLookup_update_other m k k' v hk
  · rw [Bool.not_eq_true] at h
    rw [mapSet, if_neg (by rw [h]; exact Bool.false_ne_true), mapLookup_append]
    have hsingle : mapLookup [(k, v)] k' = if k' = k then some v else none := by
      rw [mapLookup_cons]
      by_cases hk : k' = k
      · simp [hk]
      · have hkk : ¬(k = k') := fun hkk => hk hkk.symm
        simp [hk, hkk, mapLookup]
    by_cases hk : k' = k
    · subst hk
      rw [mapLookup_eq_none_of_not_has m k' h, hsingle]
      simp
    · rw [hsingle]
      simp [hk, mapLookup]

/-! ### Population lemmas: what a refresh writes into the directory -/

theorem foldl_mapSet_const_lookup (r : StoreRegion) (cs : List String) (m : RegionMap)
    (code : String) :
    mapLookup (cs.foldl (fun m k => mapSet m k r) m) code =
      if cs.contains code then some r else mapLookup m code := by
  induction cs generalizing m with
  | nil => rfl
  | cons c cs ih =>
    rw [List.foldl_cons, ih, List.contains_cons]
    by_cases hc : code = c
    · subst hc
      rw [beq_self_eq_true, Bool.true_or, if_pos rfl]
      by_cases h2 : cs.contains code = true
      · rw [if_pos h2]
      · rw [Bool.not_eq_true] at h2
        rw [if_neg (by rw [h2]; exact Bool.false_ne_true), mapLookup_mapSet, if_pos rfl]
    · have hc' : (code == c) = false := by simp [hc]
      rw [hc', Bool.false_or]
      by_cases h2 : cs.contains code = true
      · rw [if_pos h2, if_pos h2]
      · rw [Bool.not_eq_true] at h2
        have h2' : ¬(cs.contains code = true) := by rw [h2]; exact Bool.false_ne_true
        rw [if_neg h2', if_neg h2', mapLookup_mapSet, if_neg hc]

theorem populateRegion_lookup (m : RegionMap) (r : StoreRegion) (code : String) :
    mapLookup (populateRegion m r) code =
      if (regionListedCodes r).contains code then some r else mapLookup m code := by
  have h : populateRegion m r
      = (regionListedCodes r).foldl (fun m k => mapSet m k r) m := by
    rw [regionListedCodes, List.foldl_map]
    rfl
  rw [h, foldl_mapSet_const_lookup]

theorem populateRegions_lookup (regions : List StoreRegion) (m : RegionMap) (code : String) :
    mapLookup (populateRegions m regions) code =
      (lastWriter regions code).or (mapLookup m code) := by
  induction regions generalizing m with
  | nil => rfl
  | cons r rs ih =>
    have hstep : populateRegions m (r :: rs) = populateRegions (populateRegion m r) rs := by
      simp [populateRegions]
    have hlw : lastWriter (r :: rs) code
        = (lastWriter rs code).or
            (if (regionListedCodes r).contains code then some r else none) := by
      simp only [lastWriter, List.reverse_cons, List.find?_append]
      congr 1
      simp only [List.find?_cons]
      by_cases hc : (regionListedCodes r).contains code = true
      · rw [hc]
        rfl
      · rw [Bool.not_eq_true] at hc
        rw [hc, if_neg Bool.false_ne_true]
        rfl
    rw [hstep, ih, hlw, populateRegion_lookup, Option.or_assoc]
    by_cases hc : (regionListedCodes r).contains code = true
    · rw [if_pos hc, if_pos hc, Option.or_some]
    · rw [Bool.not_eq_true] at hc
      have hc' : ¬((regionListedCodes r).contains code = true) := by
        rw [hc]; exact Bool.false_ne_true
      rw [if_neg hc', if_neg hc', Option.none_or]

theorem populateFromFallback_eq_foldl (m : RegionMap) (fb : StoreRegion) :
    populateFromFallback m fb = (presentCodes fb).foldl (fun m k => mapSet m k fb) m := by
  rw [populateFromFallback, presentCodes]
  generalize regionCountries fb = cs
  induction cs generalizing m with
  | nil => rfl
  | cons c cs ih =>
    rw [List.foldl_cons, List.filterMap_cons]
    cases hiso : c.iso_2 with
    | none =>
      simp only [hiso]
      exact ih m
    | some code =>
      by_cases hcode : code = ""
      · subst hcode
        simp only [hiso, if_pos rfl]
        have hbody : (if ("" : String) ≠ "" then mapSet m "" fb else m) = m := by simp
        rw [hbody]
        exact ih m
      · simp only [hiso, if_neg hcode]
        have hbody : (if code ≠ "" then mapSet m code fb else m) = mapSet m code fb := by
          simp [hcode]
        rw [hbody, List.foldl_cons]
        exact ih (mapSet m code fb)

theorem presentCodes_ne_empty (fb : StoreRegion) : ("" : String) ∉ presentCodes fb := by
  intro hmem
  rw [presentCodes] at hmem
  obtain ⟨c, _, hc⟩ := List.mem_filterMap.mp hmem
  revert hc
  cases c.iso_2 with
  | none => simp
  | some code =>
    by_cases hcode : code = ""
    · simp [hcode]
    · simp only [if_neg hcode]
      intro hc
      exact hcode (Option.some_injective _ hc)

theorem presentCodes_contains_empty_false (fb : StoreRegion) :
    (presentCodes fb).contains "" = false := by
  rw [← Bool.not_eq_true]
  intro h
  exact presentCodes_ne_empty fb (List.elem_iff.mp h)

theorem populateFromFallback_lookup (m : RegionMap) (fb : StoreRegion) (code : String) :
    mapLookup (populateFromFallback m fb) code =
      if (presentCodes fb).contains code then some fb else mapLookup m code := by
  rw [populateFromFallback_eq_foldl, foldl_mapSet_const_lookup]

/-! ### Branch lemmas for `getRegionMap` -/

theorem getRegionMap_not_refresh (dflt : String) (s : RegionState) (now : Int)
    (fetch : FetchResult) (h : needsRefresh s now = false) :
    getRegionMap dflt s now fetch = (s, s.regionMap) := by
  simp [getRegionMap, h]

theorem getRegionMap_notOk_eq (dflt : String) (s : RegionState) (now : Int) :
    getRegionMap dflt s now .notOk = (s, s.regionMap) := by
  by_cases h : needsRefresh s now = true
  · simp [getRegionMap, h]
  · rw [Bool.not_eq_true] at h
    simp [getRegionMap, h]

theorem getRegionMap_ok_empty_eq (dflt : String) (s : RegionState) (now : Int) :
    getRegionMap dflt s now (.ok []) = (s, s.regionMap) := by
  by_cases h : needsRefresh s now = true
  · simp [getRegionMap, h]
  · rw [Bool.not_eq_true] at h
    simp [getRegionMap, h]

theorem getRegionMap_ok_nonempty_eq (dflt : String) (s : RegionState) (now : Int)
    (regions : List StoreRegion) (h : needsRefresh s now = true)
    (hne : regions.isEmpty = false) :
    getRegionMap dflt s now (.ok regions) =
      (⟨populateRegions s.regionMap regions, now,
        selectFallback dflt s.fallbackRegion regions⟩,
       populateRegions s.regionMap regions) := by
  simp [getRegionMap, h, hne]

theorem getRegionMap_threw_none_eq (dflt : String) (s : RegionState) (now : Int)
    (h : s.fallbackRegion = none) :
    getRegionMap dflt s now .threw = (s, s.regionMap) := by
  obtain ⟨map, upd, fbr⟩ := s
  replace h : fbr = none := h
  subst h
  by_cases hr : needsRefresh ⟨map, upd, none⟩ now = true
  · simp [getRegionMap, hr]
  · rw [Bool.not_eq_true] at hr
    simp [getRegionMap, hr]

theorem getRegionMap_threw_truthy_eq (dflt : String) (s : RegionState) (now : Int)
    (h : optTruthy (firstKey s.regionMap) = true) :
    getRegionMap dflt s now .threw = (s, s.regionMap) := by
  obtain ⟨map, upd, fbr⟩ := s
  replace h : optTruthy (firstKey map) = true := h
  cases fbr with
  | none =>
    by_cases hr : needsRefresh ⟨map, upd, none⟩ now = true
    · simp [getRegionMap, hr]
    · rw [Bool.not_eq_true] at hr
      simp [getRegionMap, hr]
  | some fb =>
    by_cases hr : needsRefresh ⟨map, upd, some fb⟩ now = true
    · simp [getRegionMap, hr, h]
    · rw [Bool.not_eq_true] at hr
      simp [getRegionMap, hr]

theorem getRegionMap_threw_repop_eq (dflt : String) (s : RegionState) (now : Int)
    (fb : StoreRegion) (hr : needsRefresh s now = true)
    (hfb : s.fallbackRegion = some fb)
    (ht : optTruthy (firstKey s.regionMap) = false) :
    getRegionMap dflt s now .threw =
      (⟨populateFromFallback s.regionMap fb, now, some fb⟩,
       populateFromFallback s.regionMap fb) := by
  obtain ⟨map, upd, fbr⟩ := s
  replace hfb : fbr = some fb := hfb
  subst hfb
  replace ht : optTruthy (firstKey map) = false := ht
  simp [getRegionMap, hr, ht]

theorem getRegionMap_preserves_fallback (dflt : String) (s : RegionState) (now : Int)
    (fetch : FetchResult) (fb : StoreRegion) (h : s.fallbackRegion = some fb) :
    (getRegionMap dflt s now fetch).1.fallbackRegion = some fb := by
  by_cases hr : needsRefresh s now = true
  · cases fetch with
    | notOk =>
      rw [getRegionMap_notOk_eq]
      exact h
    | threw =>
      by_cases ht : optTruthy (firstKey s.regionMap) = true
      · rw [getRegionMap_threw_truthy_eq dflt s now ht]
        exact h
      · rw [Bool.not_eq_true] at ht
        rw [getRegionMap_threw_repop_eq dflt s now fb hr h ht]
    | ok regions =>
      cases regions with
      | nil =>
        rw [getRegionMap_ok_empty_eq]
        exact h
      | cons r rs =>
        rw [getRegionMap_ok_nonempty_eq dflt s now (r :: rs) hr rfl]
        show selectFallback dflt s.fallbackRegion (r :: rs) = some fb
        rw [h]
        rfl
  · rw [Bool.not_eq_true] at hr
    rw [getRegionMap_not_refresh dflt s now fetch hr]
    exact h

theorem runCalls_preserves_fallback (dflt : String) (calls : List (Int × FetchResult)) :
    ∀ (s : RegionState) (fb : StoreRegion), s.fallbackRegion = some fb →
      (runCalls dflt s calls).fallbackRegion = some fb := by
  induction calls with
  | nil =>
    intro s fb h
    exact h
  | cons c cs ih =>
    intro s fb h
    have hstep := getRegionMap_preserves_fallback dflt s c.1 c.2 fb h
    have hrun : runCalls dflt s (c :: cs) = runCalls dflt (getRegionMap dflt s c.1 c.2).1 cs := by
      simp [runCalls]
    rw [hrun]
    exact ih _ fb hstep

theorem defaultRegionCode_ne_empty (env : Option String) : defaultRegionCode env ≠ "" := by
  cases env with
  | none => simp [defaultRegionCode]
  | some s =>
    by_cases h : jsTruthy s = true
    · simp only [defaultRegionCode, h, if_true]
      exact of_decide_eq_true h
    · rw [Bool.not_eq_true] at h
      simp [defaultRegionCode, h]

theorem getCountryCode_ne_empty (dflt pathname : String) (header : Option String)
    (m : RegionMap) (hd : dflt ≠ "") :
    getCountryCode dflt pathname header m ≠ "" := by
  cases hr : resolveStep dflt ((firstSegment? pathname).map jsToLower)
      (header.map jsToLower) m with
  | none =>
    simp only [getCountryCode, hr]
    exact hd
  | some c =>
    simp only [getCountryCode, hr]
    by_cases hc : c = ""
    · rw [if_pos hc]
      exact hd
    · rw [if_neg hc]
      exact hc

/-! ### Claims about the region directory cache -/

/-- C7: when the refresh fetch returns a non-success HTTP status, or
succeeds with an empty region list, `getRegionMap` returns the existing
mapping with the whole directory state (mapping, timestamp, fallback
region) unchanged; being a total Lean function, no exception propagates
to the caller. -/
theorem C7_http_error_or_empty_returns_unchanged :
    ∀ (dflt : String) (s : RegionState) (now : Int),
      getRegionMap dflt s now .notOk = (s, s.regionMap) ∧
      getRegionMap dflt s now (.ok []) = (s, s.regionMap) :=
  fun dflt s now => ⟨getRegionMap_notOk_eq dflt s now, getRegionMap_ok_empty_eq dflt s now⟩

/-- C2 counterexample: an execution of `getRegionMap` whose fetch throws
(no successful fetch at all) still advances the timestamp — here from 5
to 10 — because the error path repopulates from the established fallback
region and then updates `regionMapUpdated`. This refutes the claim that
no execution path ending in a fetch error advances the timestamp. -/
theorem C2_counterexample :
    (getRegionMap "us" ⟨[], 5, some regionFR⟩ 10 .threw).1.regionMapUpdated = 10 ∧
    (⟨[], 5, some regionFR⟩ : RegionState).regionMapUpdated = 5 := by
  exact ⟨by decide, by decide⟩

/-- C2 amended: the timestamp is advanced (to `now`) only by a refresh
that either fetched a non-empty region list successfully — regardless of
how many entries that populated — or took the error (throw) path with a
falsy first map key and an established fallback region; a non-success
status or an empty region list never advances it. -/
theorem C2_timestamp_advance_characterization :
    ∀ (dflt : String) (s : RegionState) (now : Int) (fetch : FetchResult),
      (getRegionMap dflt s now fetch).1.regionMapUpdated ≠ s.regionMapUpdated →
      (getRegionMap dflt s now fetch).1.regionMapUpdated = now ∧
      needsRefresh s now = true ∧
      ((∃ regions, fetch = .ok regions ∧ regions ≠ []) ∨
        (fetch = .threw ∧ optTruthy (firstKey s.regionMap) = false ∧
          s.fallbackRegion.isSome = true)) := by
  intro dflt s now fetch hne
  by_cases hr : needsRefresh s now = true
  · cases fetch with
    | notOk =>
      rw [getRegionMap_notOk_eq] at hne
      exact absurd rfl hne
    | ok regions =>
      cases regions with
      | nil =>
        rw [getRegionMap_ok_empty_eq] at hne
        exact absurd rfl hne
      | cons r rs =>
        rw [getRegionMap_ok_nonempty_eq dflt s now (r :: rs) hr rfl]
        exact ⟨rfl, hr, .inl ⟨r :: rs, rfl, by simp⟩⟩
    | threw =>
      cases hfb : s.fallbackRegion with
      | none =>
        rw [getRegionMap_threw_none_eq dflt s now hfb] at hne
        exact absurd rfl hne
      | some fb =>
        by_cases ht : optTruthy (firstKey s.regionMap) = true
        · rw [getRegionMap_threw_truthy_eq dflt s now ht] at hne
          exact absurd rfl hne
        · rw [Bool.not_eq_true] at ht
          rw [getRegionMap_threw_repop_eq dflt s now fb hr hfb ht]
          exact ⟨rfl, hr, .inr ⟨rfl, ht, rfl⟩⟩
  · rw [Bool.not_eq_true] at hr
    rw [getRegionMap_not_refresh dflt s now fetch hr] at hne
    exact absurd rfl hne

/-- C2 witness: the characterization applied to a concrete successful
refresh that moves the timestamp from 0 to 99. -/
theorem C2_timestamp_advance_characterization_witness :
    (getRegionMap "us" ⟨[], 0, none⟩ 99 (.ok [regionUS])).1.regionMapUpdated ≠
      (⟨[], 0, none⟩ : RegionState).regionMapUpdated ∧
    ((getRegionMap "us" ⟨[], 0, none⟩ 99 (.ok [regionUS])).1.regionMapUpdated = 99 ∧
      needsRefresh ⟨[], 0, none⟩ 99 = true ∧
      ((∃ regions, (FetchResult.ok [regionUS]) = .ok regions ∧ regions ≠ []) ∨
        ((FetchResult.ok [regionUS]) = .threw ∧
          optTruthy (firstKey (⟨[], 0, none⟩ : RegionState).regionMap) = false ∧
          (⟨[], 0, none⟩ : RegionState).fallbackRegion.isSome = true))) :=
  ⟨by decide,
   C2_timestamp_advance_characterization "us" ⟨[], 0, none⟩ 99 (.ok [regionUS]) (by decide)⟩

/-- C4 counterexample: starting from an empty directory (timestamp 0),
two calls at times 1 and 2 — both less than 3600 s after the recorded
last update — whose fetches both return a non-success status perform two
fetches, not one: because the mapping stays empty, the second call
refetches regardless of the first call's outcome being fresh. -/
theorem C4_counterexample :
    (runCount "us" ⟨[], 0, none⟩ [(1, .notOk), (2, .notOk)]).2 = 2 ∧
    needsRefresh (getRegionMap "us" ⟨[], 0, none⟩ 1 .notOk).1 2 = true ∧
    ((2 : Int) - (⟨[], 0, none⟩ : RegionState).regionMapUpdated < 3600 * 1000) := by
  exact ⟨by decide, by decide, by decide⟩

/-- C4 amended: two calls perform exactly one fetch in total provided the
first call's refresh leaves the mapping with a truthy first key and the
second call happens within the freshness window of the recorded update;
if the first call's fetch fails leaving the mapping empty, the second
call fetches again. -/
theorem C4_second_call_no_fetch_when_populated :
    ∀ (dflt : String) (s : RegionState) (t1 t2 : Int) (f1 f2 : FetchResult),
      needsRefresh s t1 = true →
      optTruthy (firstKey (getRegionMap dflt s t1 f1).1.regionMap) = true →
      ¬((getRegionMap dflt s t1 f1).1.regionMapUpdated < t2 - 3600 * 1000) →
      needsRefresh (getRegionMap dflt s t1 f1).1 t2 = false ∧
      (runCount dflt s [(t1, f1), (t2, f2)]).2 = 1 := by
  intro dflt s t1 t2 f1 f2 h1 h2 h3
  have hsecond : needsRefresh (getRegionMap dflt s t1 f1).1 t2 = false := by
    unfold needsRefresh
    rw [h2]
    simp only [Bool.not_true, Bool.false_or, decide_eq_false_iff_not]
    exact h3
  refine ⟨hsecond, ?_⟩
  simp [runCount, h1, hsecond]

/-- C4 witness: a successful first call at time 1 populates the map, so a
second call at time 2 performs no fetch: one fetch in total. -/
theorem C4_second_call_no_fetch_when_populated_witness :
    needsRefresh ⟨[], 0, none⟩ 1 = true ∧
    optTruthy (firstKey (getRegionMap "us" ⟨[], 0, none⟩ 1 (.ok [regionUS])).1.regionMap) = true ∧
    ¬((getRegionMap "us" ⟨[], 0, none⟩ 1 (.ok [regionUS])).1.regionMapUpdated < 2 - 3600 * 1000) ∧
    (needsRefresh (getRegionMap "us" ⟨[], 0, none⟩ 1 (.ok [regionUS])).1 2 = false ∧
      (runCount "us" ⟨[], 0, none⟩ [(1, .ok [regionUS]), (2, .notOk)]).2 = 1) :=
  ⟨by decide, by decide, by decide,
   C4_second_call_no_fetch_when_populated "us" ⟨[], 0, none⟩ 1 2 (.ok [regionUS]) .notOk
     (by decide) (by decide) (by decide)⟩

/-- C5: after a successful refresh with a non-empty response, every
country code listed under any region of the response is a key of the
resulting directory, and it is mapped to the last region (in response
order) that lists it — last writer wins on duplicates across regions. -/
theorem C5_success_population_last_writer_wins :
    ∀ (dflt : String) (s : RegionState) (now : Int) (regions : List StoreRegion)
      (code : String),
      needsRefresh s now = true →
      regions ≠ [] →
      (regions.any fun r => (regionListedCodes r).contains code) = true →
      ∃ r, lastWriter regions code = some r ∧
        mapLookup ((getRegionMap dflt s now (.ok regions)).1.regionMap) code = some r := by
  intro dflt s now regions code h hnil hlisted
  have hisEmpty : regions.isEmpty = false := by
    cases regions with
    | nil => exact absurd rfl hnil
    | cons r rs => rfl
  have hmap : (getRegionMap dflt s now (.ok regions)).1.regionMap =
      populateRegions s.regionMap regions := by
    rw [getRegionMap_ok_nonempty_eq dflt s now regions h hisEmpty]
  have hlwsome : (lastWriter regions code).isSome = true := by
    rw [lastWriter, List.find?_isSome]
    obtain ⟨r, hr, hpr⟩ := List.any_eq_true.mp hlisted
    exact ⟨r, List.mem_reverse.mpr hr, hpr⟩
  obtain ⟨r, hr⟩ := Option.isSome_iff_exists.mp hlwsome
  refine ⟨r, hr, ?_⟩
  rw [hmap, populateRegions_lookup, hr, Option.or_some]

/-- C5 witness: a response listing "de" under both Germany and Europe
(in that order) leaves "de" mapped to Europe, the last writer. -/
theorem C5_success_population_last_writer_wins_witness :
    needsRefresh ⟨[], 0, none⟩ 1 = true ∧
    ([regionDE, regionEU] : List StoreRegion) ≠ [] ∧
    ([regionDE, regionEU].any fun r => (regionListedCodes r).contains "de") = true ∧
    (∃ r, lastWriter [regionDE, regionEU] "de" = some r ∧
      mapLookup ((getRegionMap "us" ⟨[], 0, none⟩ 1
        (.ok [regionDE, regionEU])).1.regionMap) "de" = some r) :=
  ⟨by decide, by decide, by decide,
   C5_success_population_last_writer_wins "us" ⟨[], 0, none⟩ 1 [regionDE, regionEU] "de"
     (by decide) (by decide) (by decide)⟩

/-- C6: fallback-region selection and permanence. If no fallback region
is set and a refresh succeeds with a non-empty list, the new fallback is
the first region whose country list contains the default region code,
or else the first region of the list; and once the fallback region is
set, no later sequence of `getRegionMap` calls — whatever their times
and fetch outcomes — ever changes it. -/
theorem C6_fallback_selected_once_never_overwritten :
    ∀ (dflt : String) (s : RegionState) (now : Int) (regions : List StoreRegion)
      (fb : StoreRegion) (calls : List (Int × FetchResult)),
      (s.fallbackRegion = none → needsRefresh s now = true → regions ≠ [] →
        (getRegionMap dflt s now (.ok regions)).1.fallbackRegion =
          ((regions.find? fun r =>
            (regionCountries r).any fun c => c.iso_2 == some dflt).or regions.head?)) ∧
      (s.fallbackRegion = some fb → (runCalls dflt s calls).fallbackRegion = some fb) := by
  intro dflt s now regions fb calls
  constructor
  · intro hnone hr hnil
    have hisEmpty : regions.isEmpty = false := by
      cases regions with
      | nil => exact absurd rfl hnil
      | cons r rs => rfl
    rw [getRegionMap_ok_nonempty_eq dflt s now regions hr hisEmpty]
    show selectFallback dflt s.fallbackRegion regions = _
    rw [hnone, selectFallback]
    cases hf : regions.find? fun r => (regionCountries r).any fun c => c.iso_2 == some dflt with
    | some r => rw [Option.or_some]
    | none => rw [Option.none_or]
  · intro hsome
    exact runCalls_preserves_fallback dflt calls s fb hsome

/-- C6 witness: selection prefers the region containing the default code
"us" (here the second region), and a set fallback survives a later throw
and a later successful refresh. -/
theorem C6_fallback_selected_once_never_overwritten_witness :
    ((getRegionMap "us" ⟨[], 0, none⟩ 1 (.ok [regionDE, regionUS])).1.fallbackRegion =
      (([regionDE, regionUS].find? fun r =>
        (regionCountries r).any fun c => c.iso_2 == some "us").or
        [regionDE, regionUS].head?)) ∧
    (runCalls "us" ⟨[], 0, some regionFR⟩
      [(5000000, .threw), (9000000, .ok [regionUS])]).fallbackRegion = some regionFR :=
  ⟨(C6_fallback_selected_once_never_overwritten "us" ⟨[], 0, none⟩ 1 [regionDE, regionUS]
      regionFR []).1 rfl (by decide) (by decide),
   (C6_fallback_selected_once_never_overwritten "us" ⟨[], 0, some regionFR⟩ 0 []
      regionFR [(5000000, .threw), (9000000, .ok [regionUS])]).2 rfl⟩

/-- C8 counterexample: the error path's "mapping is currently empty"
check is really first-key truthiness. A non-empty mapping whose
first-inserted key is the empty string is NOT left untouched by a
throwing refresh: the fallback region's codes are appended to it. -/
theorem C8_counterexample :
    (⟨[("", regionNoIso)], 0, some regionFR⟩ : RegionState).regionMap ≠ [] ∧
    (getRegionMap "us" ⟨[("", regionNoIso)], 0, some regionFR⟩ 0 .threw).1.regionMap ≠
      (⟨[("", regionNoIso)], 0, some regionFR⟩ : RegionState).regionMap := by
  exact ⟨by decide, by decide⟩

/-- C8 amended: when the refresh fetch throws, `getRegionMap` never
raises and returns the mapping; if the mapping's first-inserted key is
absent or empty (the code's emptiness test) and a fallback region is
established, the fallback's present, non-empty country codes are written
into the mapping — which, when the mapping is truly empty, makes it
consist of exactly those codes, each mapped to the fallback region;
otherwise (truthy first key, or no fallback region) the state is left
completely untouched. -/
theorem C8_throw_fallback_repopulation :
    ∀ (dflt : String) (s : RegionState) (now : Int),
      needsRefresh s now = true →
      ((∀ fb, s.fallbackRegion = some fb → optTruthy (firstKey s.regionMap) = false →
          (getRegionMap dflt s now .threw).1.regionMap =
            populateFromFallback s.regionMap fb ∧
          (getRegionMap dflt s now .threw).2 = populateFromFallback s.regionMap fb ∧
          (s.regionMap = [] → ∀ code,
            mapLookup ((getRegionMap dflt s now .threw).1.regionMap) code =
              if (presentCodes fb).contains code then some fb else none)) ∧
        (optTruthy (firstKey s.regionMap) = true ∨ s.fallbackRegion = none →
          getRegionMap dflt s now .threw = (s, s.regionMap))) := by
  intro dflt s now hr
  constructor
  · intro fb hfb ht
    rw [getRegionMap_threw_repop_eq dflt s now fb hr hfb ht]
    refine ⟨rfl, rfl, ?_⟩
    intro hempty code
    show mapLookup (populateFromFallback s.regionMap fb) code = _
    rw [populateFromFallback_lookup, hempty]
    by_cases hc : (presentCodes fb).contains code = true
    · rw [if_pos hc, if_pos hc]
    · have hc' : ¬((presentCodes fb).contains code = true) := hc
      rw [if_neg hc', if_neg hc']
      rfl
  · intro hcases
    cases hcases with
    | inl ht => exact getRegionMap_threw_truthy_eq dflt s now ht
    | inr hnone => exact getRegionMap_threw_none_eq dflt s now hnone

/-- C8 witness: with an empty mapping and fallback region France
(covering "fr"), a throwing refresh repopulates the mapping so that
lookup of "fr" yields the fallback region. -/
theorem C8_throw_fallback_repopulation_witness :
    needsRefresh ⟨[], 0, some regionFR⟩ 7 = true ∧
    (getRegionMap "us" ⟨[], 0, some regionFR⟩ 7 .threw).1.regionMap =
      populateFromFallback [] regionFR ∧
    mapLookup ((getRegionMap "us" ⟨[], 0, some regionFR⟩ 7 .threw).1.regionMap) "fr" =
      (if (presentCodes regionFR).contains "fr" then some regionFR else none) :=
  ⟨by decide,
   ((C8_throw_fallback_repopulation "us" ⟨[], 0, some regionFR⟩ 7 (by decide)).1 regionFR
     rfl (by decide)).1,
   (((C8_throw_fallback_repopulation "us" ⟨[], 0, some regionFR⟩ 7 (by decide)).1 regionFR
     rfl (by decide)).2.2 rfl) "fr"⟩

/-- C10: a successful refresh whose response contains a country with a
missing `iso_2` inserts the empty string as a directory key (via
`c.iso_2 ?? ""`), whereas the error-path fallback population skips such
countries — it never changes what the directory holds at key "". -/
theorem C10_missing_iso2_empty_string_key :
    ∀ (dflt : String) (s : RegionState) (now : Int) (regions : List StoreRegion)
      (r : StoreRegion) (c : Country),
      (needsRefresh s now = true → regions ≠ [] → r ∈ regions →
        c ∈ regionCountries r → c.iso_2 = none →
        mapHas ((getRegionMap dflt s now (.ok regions)).1.regionMap) "" = true) ∧
      (mapLookup ((getRegionMap dflt s now .threw).1.regionMap) "" =
        mapLookup s.regionMap "") := by
  intro dflt s now regions r c
  constructor
  · intro hr hnil hrin hcin hiso
    have hisEmpty : regions.isEmpty = false := by
      cases regions with
      | nil => exact absurd rfl hnil
      | cons x xs => rfl
    rw [getRegionMap_ok_nonempty_eq dflt s now regions hr hisEmpty]
    show mapHas (populateRegions s.regionMap regions) "" = true
    rw [← mapLookup_isSome_eq_mapHas, populateRegions_lookup]
    have hmem : ("" : String) ∈ regionListedCodes r := by
      rw [regionListedCodes]
      exact List.mem_map.mpr ⟨c, hcin, by rw [hiso]; rfl⟩
    have hlwsome : (lastWriter regions "").isSome = true := by
      rw [lastWriter, List.find?_isSome]
      exact ⟨r, List.mem_reverse.mpr hrin, List.elem_iff.mpr hmem⟩
    obtain ⟨w, hw⟩ := Option.isSome_iff_exists.mp hlwsome
    rw [hw, Option.or_some]
    rfl
  · by_cases hr : needsRefresh s now = true
    · cases hfb : s.fallbackRegion with
      | none => rw [getRegionMap_threw_none_eq dflt s now hfb]
      | some fb =>
        by_cases ht : optTruthy (firstKey s.regionMap) = true
        · rw [getRegionMap_threw_truthy_eq dflt s now ht]
        · rw [Bool.not_eq_true] at ht
          rw [getRegionMap_threw_repop_eq dflt s now fb hr hfb ht]
          show mapLookup (populateFromFallback s.regionMap fb) "" = mapLookup s.regionMap ""
          rw [populateFromFallback_lookup, presentCodes_contains_empty_false]
          rfl
    · rw [Bool.not_eq_true] at hr
      rw [getRegionMap_not_refresh dflt s now .threw hr]

/-- C10 witness: a response containing a region with a missing `iso_2`
creates key "" on the success path, while a throwing refresh over an
empty map with fallback France leaves key "" absent. -/
theorem C10_missing_iso2_empty_string_key_witness :
    needsRefresh ⟨[], 0, none⟩ 1 = true ∧
    ([regionNoIso] : List StoreRegion) ≠ [] ∧
    regionNoIso ∈ ([regionNoIso] : List StoreRegion) ∧
    (⟨none⟩ : Country) ∈ regionCountries regionNoIso ∧
    (⟨none⟩ : Country).iso_2 = none ∧
    mapHas ((getRegionMap "us" ⟨[], 0, none⟩ 1 (.ok [regionNoIso])).1.regionMap) "" = true ∧
    mapLookup ((getRegionMap "us" ⟨[], 0, some regionFR⟩ 3 .threw).1.regionMap) "" =
      mapLookup ([] : RegionMap) "" :=
  ⟨by decide, by decide, by decide, by decide, by decide,
   (C10_missing_iso2_empty_string_key "us" ⟨[], 0, none⟩ 1 [regionNoIso] regionNoIso
     ⟨none⟩).1 (by decide) (by decide) (by decide) (by decide) (by decide),
   (C10_missing_iso2_empty_string_key "us" ⟨[], 0, some regionFR⟩ 3 [] regionNoIso ⟨none⟩).2⟩

/-! ### Resolution: code vs. specification wording -/

theorem optTruthy_eq_getD_ne (u : Option String) :
    optTruthy u = decide ((u.getD "") ≠ "") := by
  cases u with
  | none => simp [optTruthy]
  | some s => simp [optTruthy, jsTruthy]

theorem tail34_eq (dflt : String) (m : RegionMap) :
    (match (if mapHas m dflt then some dflt
            else if optTruthy (firstKey m) then firstKey m else none) with
     | some c => if c = "" then dflt else c
     | none => dflt) =
    (if mapHas m dflt then dflt
     else
       match firstKey m with
       | some k => if k ≠ "" then k else dflt
       | none => dflt) := by
  by_cases h3 : mapHas m dflt = true
  · rw [if_pos h3, if_pos h3]
    by_cases hd : dflt = ""
    · simp [hd]
    · simp [hd]
  · rw [if_neg h3, if_neg h3]
    cases hk : firstKey m with
    | none => rfl
    | some k =>
      by_cases hke : k = ""
      · subst hke
        simp [optTruthy, jsTruthy]
      · simp [optTruthy, jsTruthy, hke]

theorem step_fixup_eq (dflt : String) (u v : Option String) (m : RegionMap) :
    (match resolveStep dflt u v m with
     | some c => if c = "" then dflt else c
     | none => dflt) =
    (if (u.getD "") ≠ "" ∧ mapHas m (u.getD "") then u.getD ""
     else if (v.getD "") ≠ "" ∧ mapHas m (v.getD "") then v.getD ""
     else if mapHas m dflt then dflt
     else
       match firstKey m with
       | some k => if k ≠ "" then k else dflt
       | none => dflt) := by
  unfold resolveStep
  by_cases h1 : (u.getD "") ≠ "" ∧ mapHas m (u.getD "") = true
  · obtain ⟨hne, hhas⟩ := h1
    have hg : (optTruthy u && mapHas m (u.getD "")) = true := by
      rw [optTruthy_eq_getD_ne, hhas, Bool.and_true, decide_eq_true hne]
    rw [if_pos hg, if_pos ⟨hne, hhas⟩]
    cases u with
    | none => exact absurd rfl hne
    | some su =>
      simp only [Option.getD_some] at hne ⊢
      show (if su = "" then dflt else su) = su
      rw [if_neg hne]
  · have hg : (optTruthy u && mapHas m (u.getD "")) = false := by
      rw [optTruthy_eq_getD_ne]
      by_cases hne : (u.getD "") ≠ ""
      · have hhas : mapHas m (u.getD "") = false := by
          cases hh : mapHas m (u.getD "") with
          | false => rfl
          | true => exact absurd ⟨hne, hh⟩ h1
        rw [hhas, Bool.and_false]
      · rw [decide_eq_false hne, Bool.false_and]
    rw [if_neg (by rw [hg]; exact Bool.false_ne_true), if_neg h1]
    by_cases h2 : (v.getD "") ≠ "" ∧ mapHas m (v.getD "") = true
    · obtain ⟨hne, hhas⟩ := h2
      have hg2 : (optTruthy v && mapHas m (v.getD "")) = true := by
        rw [optTruthy_eq_getD_ne, hhas, Bool.and_true, decide_eq_true hne]
      rw [if_pos hg2, if_pos ⟨hne, hhas⟩]
      cases v with
      | none => exact absurd rfl hne
      | some sv =>
        simp only [Option.getD_some] at hne ⊢
        show (if sv = "" then dflt else sv) = sv
        rw [if_neg hne]
    · have hg2 : (optTruthy v && mapHas m (v.getD "")) = false := by
        rw [optTruthy_eq_getD_ne]
        by_cases hne : (v.getD "") ≠ ""
        · have hhas : mapHas m (v.getD "") = false := by
            cases hh : mapHas m (v.getD "") with
            | false => rfl
            | true => exact absurd ⟨hne, hh⟩ h2
          rw [hhas, Bool.and_false]
        · rw [decide_eq_false hne, Bool.false_and]
      rw [if_neg (by rw [hg2]; exact Bool.false_ne_true), if_neg h2]
      exact tail34_eq dflt m

theorem getD_one_eq_get? (l : List String) : l.getD 1 "" = (l.get? 1).getD "" := by
  cases l with
  | nil => rfl
  | cons a t =>
    cases t with
    | nil => rfl
    | cons b t2 => rfl

/-! ### Claims about country-code resolution -/

/-- C3 counterexample: with a directory whose only (hence first-inserted)
key is the empty string, a request to `/` with no header resolves to the
default region code "us", although the claim's rules predict the
directory key "": the first path segment of `/` ("") is a key (rule 1),
"us" is not a key (rule 3 does not apply), and the directory is
non-empty with first-inserted key "" (rule 4). The code's truthiness
guards skip empty-string candidates, so neither rule fires. -/
theorem C3_counterexample :
    mapHas [("", regionNoIso)] "" = true ∧
    firstKey [("", regionNoIso)] = some "" ∧
    ([("", regionNoIso)] : RegionMap) ≠ [] ∧
    mapHas [("", regionNoIso)] "us" = false ∧
    getCountryCode "us" "/" none [("", regionNoIso)] = "us" := by
  exact ⟨by decide, by decide, by decide, by decide, by decide⟩

/-- C3 amended: resolution returns the first of — non-empty lower-cased
first path segment that is a directory key; non-empty lower-cased
geolocation header that is a key; the default region string if it is a
key; the first-inserted key if that key is non-empty; else the default
region code (`getCountryCode` coincides with `resolveSpec`, the
specification's rules restricted to non-empty candidates). The claim's
three concrete resolution examples hold as stated. -/
theorem C3_resolution_order :
    (∀ (dflt pathname : String) (header : Option String) (m : RegionMap),
      getCountryCode dflt pathname header m = resolveSpec dflt pathname header m) ∧
    getCountryCode "us" "/de/product" none [("us", regionUS), ("de", regionDE)] = "de" ∧
    getCountryCode "us" "/" (some "US") [("us", regionUS), ("de", regionDE)] = "us" ∧
    getCountryCode "us" "/" none [("de", regionDE)] = "de" := by
  refine ⟨?_, by decide, by decide, by decide⟩
  intro dflt pathname header m
  have hseg : jsToLower ((jsSplitSlash pathname).getD 1 "") =
      ((firstSegment? pathname).map jsToLower).getD "" := by
    rw [firstSegment?, getD_one_eq_get?]
    cases h : (jsSplitSlash pathname).get? 1 with
    | none => rfl
    | some s => rfl
  have hhdr : jsToLower (header.getD "") = ((header.map jsToLower).getD "") := by
    cases header with
    | none => rfl
    | some s => rfl
  show (match resolveStep dflt ((firstSegment? pathname).map jsToLower)
          (header.map jsToLower) m with
        | some c => if c = "" then dflt else c
        | none => dflt) = resolveSpec dflt pathname header m
  rw [step_fixup_eq]
  simp only [resolveSpec, hseg, hhdr]

/-! ### Claims about the redirect decision -/

/-- C1: on the non-error path (the first path segment exists, and the
default region code is non-empty, as `... || "us"` guarantees), the
middleware passes the request through unmodified iff the first path
segment contains the resolved country code as a substring; otherwise it
responds with a 307 redirect to
`{origin}/{country_code}{original_path_or_empty_if_root}{original_query_string}`. -/
theorem C1_pass_through_iff_segment_contains_code :
    ∀ (dflt : String) (m : RegionMap) (req : Request) (seg : String),
      dflt ≠ "" →
      firstSegment? req.pathname = some seg →
      ((middleware dflt m req = .next ↔
        jsIncludes seg (getCountryCode dflt req.pathname req.vercelCountry m) = true) ∧
       (jsIncludes seg (getCountryCode dflt req.pathname req.vercelCountry m) = false →
        middleware dflt m req =
          .redirect (req.origin ++ "/" ++
            getCountryCode dflt req.pathname req.vercelCountry m ++
            redirectPathOf req ++ queryStringOf req) 307)) := by
  intro dflt m req seg hd hseg
  have hcc : jsTruthy (getCountryCode dflt req.pathname req.vercelCountry m) = true :=
    decide_eq_true (getCountryCode_ne_empty dflt req.pathname req.vercelCountry m hd)
  have hbody : middlewareBody dflt m req =
      (if jsIncludes seg (getCountryCode dflt req.pathname req.vercelCountry m) then
        Except.ok MwResult.next
      else
        Except.ok (.redirect (req.origin ++ "/" ++
          getCountryCode dflt req.pathname req.vercelCountry m ++
          redirectPathOf req ++ queryStringOf req) 307)) := by
    simp only [middlewareBody, hcc, hseg, if_true]
  have hmwpos : jsIncludes seg (getCountryCode dflt req.pathname req.vercelCountry m) = true →
      middleware dflt m req = .next := by
    intro hinc
    rw [middleware, hbody, if_pos hinc]
    rfl
  have hmwneg : jsIncludes seg (getCountryCode dflt req.pathname req.vercelCountry m) = false →
      middleware dflt m req =
        .redirect (req.origin ++ "/" ++
          getCountryCode dflt req.pathname req.vercelCountry m ++
          redirectPathOf req ++ queryStringOf req) 307 := by
    intro hinc
    rw [middleware, hbody, if_neg (by rw [hinc]; exact Bool.false_ne_true)]
    rfl
  refine ⟨⟨?_, hmwpos⟩, hmwneg⟩
  intro hnext
  cases hinc : jsIncludes seg (getCountryCode dflt req.pathname req.vercelCountry m) with
  | true => rfl
  | false =>
    rw [hmwneg hinc] at hnext
    exact MwResult.noConfusion hnext

/-- C1 witness: a request to `/us/products?x=1` with directory key "us"
resolves to "us", the first segment "us" contains it, and the middleware
passes the request through. -/
theorem C1_pass_through_iff_segment_contains_code_witness :
    ("us" : String) ≠ "" ∧
    firstSegment? reqPassThrough.pathname = some "us" ∧
    ((middleware "us" [("us", regionUS)] reqPassThrough = .next ↔
      jsIncludes "us" (getCountryCode "us" reqPassThrough.pathname
        reqPassThrough.vercelCountry [("us", regionUS)]) = true) ∧
     (jsIncludes "us" (getCountryCode "us" reqPassThrough.pathname
        reqPassThrough.vercelCountry [("us", regionUS)]) = false →
      middleware "us" [("us", regionUS)] reqPassThrough =
        .redirect (reqPassThrough.origin ++ "/" ++
          getCountryCode "us" reqPassThrough.pathname
            reqPassThrough.vercelCountry [("us", regionUS)] ++
          redirectPathOf reqPassThrough ++ queryStringOf reqPassThrough) 307)) :=
  ⟨by decide, by decide,
   C1_pass_through_iff_segment_contains_code "us" [("us", regionUS)] reqPassThrough "us"
     (by decide) (by decide)⟩

/-- C9: the middleware is total — every body outcome yields a response —
and whenever the routing body throws, the catch handler answers with a
307 redirect to
`{origin}/{default_region_code}{original_path_or_empty_if_root}{original_query_string}`. -/
theorem C9_catch_produces_default_redirect :
    ∀ (dflt : String) (m : RegionMap) (req : Request),
      (∀ e, middlewareBody dflt m req = .error e →
        middleware dflt m req =
          .redirect (req.origin ++ "/" ++ dflt ++ redirectPathOf req ++
            queryStringOf req) 307) ∧
      (∀ body : Except String MwResult, ∃ r : MwResult, middlewareCatch dflt req body = r) := by
  intro dflt m req
  constructor
  · intro e he
    rw [middleware, he]
    rfl
  · intro body
    exact ⟨middlewareCatch dflt req body, rfl⟩

/-- C9 witness: a pathname without any slash makes
`pathname.split("/")[1].includes(...)` throw, and the catch handler
redirects to the default region. -/
theorem C9_catch_produces_default_redirect_witness :
    middlewareBody "us" [] reqNoSlash = .error "TypeError" ∧
    middleware "us" [] reqNoSlash =
      .redirect (reqNoSlash.origin ++ "/" ++ "us" ++ redirectPathOf reqNoSlash ++
        queryStringOf reqNoSlash) 307 :=
  ⟨by rfl, (C9_catch_produces_default_redirect "us" [] reqNoSlash).1 "TypeError" (by rfl)⟩
